import Mathlib

/-!
# logrus-loki-hook: batching, encoding and transport of log records

A shallow embedding of `pusher.go` (and the `Stop` entry point of `hook.go`).

* Go strings are Lean strings, byte slices are lists of bytes, `int` values are
  integers, errors are their message strings (`none` is the `nil` error).
* The standard-library operations that `send` calls (`json.Marshal`,
  `compress/gzip`, `http.NewRequest`, `base64`, `http.Client.Do`) are fields of
  an environment `Env`; the code of `pusher.go` is translated around them.
* The background goroutine `run` is a function from the sequence of events that
  its `select` statement receives to the state it reaches; everything it hands
  to `send` is recorded in that state.
-/

namespace llh

/-! ## Constants (pusher.go, lines 16-22) -/

def defaultBatchMaxSize : Int := 1000

/-- The default wait, `time.Second`, in nanoseconds. -/
def defaultBatchMaxWait : Int := 1000000000

def defaultEndpoint : String := "http://localhost:3100"

/-- The client timeout, `10 * time.Second`, in nanoseconds. -/
def defaultHttpTimeout : Int := 10 * 1000000000

def minGzipSize : Nat := 3 * 1024

/-! ## Data model -/

abbrev Bytes := List UInt8

/-- A Go `map[string]string`, as the list of its key/value pairs. -/
abbrev Labels := List (String × String)

/-- A `logrus.Level`. -/
abbrev Level := Nat

/-- An instant of Go's `time.Time`: whole seconds since the Unix epoch and the
nanoseconds within that second. -/
structure Time where
  unixSec : Int
  nsec : Nat
deriving DecidableEq, Repr

/-- Two's-complement wrap of an integer into the `int64` range. -/
def wrapInt64 (x : Int) : Int := (x + 2 ^ 63) % 2 ^ 64 - 2 ^ 63

/-- `Time.UnixNano`: nanoseconds since the Unix epoch, computed in `int64`. -/
def Time.UnixNano (t : Time) : Int := wrapInt64 (t.unixSec * 1000000000 + t.nsec)

/-- `strconv.FormatInt`, used at base 10: a minus sign for a negative value, then
the digits of the magnitude in the given base, most significant first. -/
def FormatInt (i : Int) (base : Nat) : String :=
  if i < 0 then "-" ++ (Nat.toDigits base i.natAbs).asString
  else (Nat.toDigits base i.natAbs).asString

/-- Value of a string of decimal digits, most significant first. -/
def decimalValue (cs : List Char) : Nat :=
  cs.foldl (fun acc c => 10 * acc + (c.toNat - 48)) 0

structure logEntry where
  Time : Time
  Level : String
  Message : String
deriving DecidableEq, Repr

abbrev logBatch := List logEntry

structure stream where
  Stream : Labels
  Values : List (String × String)
deriving DecidableEq, Repr

structure lokiPushData where
  Streams : List stream
deriving DecidableEq, Repr

/-- `logBatch.Encode` (pusher.go, lines 42-54): one pair per record, in order. -/
def logBatch.Encode (batch : logBatch) (labels : Labels) : stream :=
  { Stream := labels
    Values := batch.map fun e => (FormatInt e.Time.UnixNano 10, e.Message) }

/-- `LogrusLokiHookConfig` / `PusherConfig` (hook.go, lines 27-35). -/
structure PusherConfig where
  Endpoint : String
  BatchMaxSize : Int
  BatchMaxWait : Int
  Labels : Labels
  Username : String
  Password : String
  VisibleLevels : List Level
deriving DecidableEq, Repr

/-! ## Transport: requests, responses and the library environment -/

/-- An `http.Header` restricted to single-valued keys. -/
abbrev Header := List (String × String)

/-- `Header.Set`: replaces whatever the key held. -/
def Header.Set (h : Header) (key value : String) : Header :=
  (key, value) :: h.filter fun kv => kv.1 ≠ key

/-- `Header.Get`, with `none` for an absent key. -/
def Header.Get (h : Header) (key : String) : Option String :=
  h.lookup key

structure Request where
  Method : String
  URL : String
  Header : Header
  Body : Bytes
deriving DecidableEq, Repr

structure Response where
  StatusCode : Int
  Status : String
deriving DecidableEq, Repr

/-- `http.StatusNoContent`. -/
def StatusNoContent : Int := 204

/-- The standard-library operations used by `send`.

* `marshal` is `json.Marshal` on a push payload;
* `gzipWrite` and `gzipClose` are the `Write` and `Close` methods of a
  `gzip.Writer` created by `gzipNewWriter` over an empty buffer, `gzipClose`
  returning the buffer contents once the stream is finished, and `gunzip` is
  the matching decompressor;
* `parseURL` is the URL parsing of `http.NewRequest`: an error, or the text of
  the parsed URL, which the request then carries;
* `base64` is `base64.StdEncoding.EncodeToString`;
* `client n` is the outcome of `http.Client.Do` for the call made after `n`
  earlier ones: a transport error or a response. -/
structure Env where
  marshal : lokiPushData → Except String Bytes
  GzipWriter : Type
  gzipNewWriter : GzipWriter
  gzipWrite : GzipWriter → Bytes → Except String GzipWriter
  gzipClose : GzipWriter → Except String Bytes
  gunzip : Bytes → Option Bytes
  parseURL : String → Except String String
  base64 : String → String
  client : Nat → Request → Except String Response

/-- The decompressor inverts the compressor: whatever a writer produced from one
`Write` of `data` followed by `Close` decompresses to `data`. -/
def Env.GzipRoundTrip (env : Env) : Prop :=
  ∀ (data : Bytes) (g : env.GzipWriter) (out : Bytes),
    env.gzipWrite env.gzipNewWriter data = .ok g → env.gzipClose g = .ok out →
      env.gunzip out = some data

/-- `http.NewRequest`: fails when the URL does not parse, otherwise a request
for the parsed URL with no header. -/
def NewRequest (env : Env) (method url : String) (body : Bytes) : Except String Request :=
  match env.parseURL url with
  | .error err => .error err
  | .ok parsed => .ok { Method := method, URL := parsed, Header := [], Body := body }

/-- `Request.SetBasicAuth`: `Authorization: Basic base64(username:password)`. -/
def Request.SetBasicAuth (req : Request) (env : Env) (username password : String) : Request :=
  let value := "Basic " ++ env.base64 (username ++ ":" ++ password)
  { req with Header := Header.Set req.Header "Authorization" value }

/-- `strings.HasSuffix`: `s` ends with `suffix`. -/
def HasSuffix (s suffix : String) : Prop := suffix.data <:+ s.data

instance (s suffix : String) : Decidable (HasSuffix s suffix) :=
  inferInstanceAs (Decidable (suffix.data <:+ s.data))

/-- `strings.TrimSuffix`: `s` without the given trailing `suffix`, removed once;
`s` itself when it does not end with `suffix`. -/
def TrimSuffix (s suffix : String) : String :=
  if HasSuffix s suffix then ⟨s.data.take (s.data.length - suffix.data.length)⟩ else s

/-! ## The pusher -/

/-- The fields of `Pusher` besides its goroutine: the configuration, whether the
`quit` channel has been closed, and the counter of `waitGroup`. -/
structure Pusher extends PusherConfig where
  quitClosed : Bool
  waitGroup : Nat
deriving DecidableEq, Repr

/-- The composite literal of `send` (pusher.go, lines 138-140). -/
def Pusher.payload (p : Pusher) (batch : logBatch) : lokiPushData :=
  { Streams := [logBatch.Encode batch p.Labels] }

/-- What one call of `send` did: the requests it handed to `client.Do`, in
order, and the error it returned (`none` for `nil`). -/
structure SendResult where
  requests : List Request
  err : Option String
deriving DecidableEq, Repr

/-- The body of the request: the compressed JSON when `withGzip`, else the JSON
itself (pusher.go, lines 151-161). -/
def fillBuffer (env : Env) (withGzip : Bool) (jsonData : Bytes) : Except String Bytes :=
  if withGzip then
    match env.gzipWrite env.gzipNewWriter jsonData with
    | .error err => .error ("failed to gzip json: " ++ err)
    | .ok g =>
      match env.gzipClose g with
      | .error err => .error ("failed to close gzip writer: " ++ err)
      | .ok out => .ok out
  else .ok jsonData

/-- The header lines of `send` (pusher.go, lines 168-175): the content type,
the content encoding of a compressed body, and the credentials when both a
user name and a password are configured. -/
def Pusher.setHeaders (p : Pusher) (env : Env) (withGzip : Bool) (req0 : Request) : Request :=
  let req1 : Request := { req0 with Header := Header.Set req0.Header "Content-Type" "application/json" }
  let req2 : Request :=
    if withGzip then { req1 with Header := Header.Set req1.Header "Content-Encoding" "gzip" }
    else req1
  if p.Username ≠ "" ∧ p.Password ≠ "" then req2.SetBasicAuth env p.Username p.Password
  else req2

/-- `Pusher.send` (pusher.go, lines 137-189); `n` is the number of calls of
`client.Do` made before this one. -/
def Pusher.send (p : Pusher) (env : Env) (n : Nat) (batch : logBatch) : SendResult :=
  let data := p.payload batch
  match env.marshal data with
  | .error err => ⟨[], some ("failed to marshal json: " ++ err)⟩
  | .ok jsonData =>
    let withGzip : Bool := decide (minGzipSize ≤ jsonData.length)
    match fillBuffer env withGzip jsonData with
    | .error err => ⟨[], some err⟩
    | .ok buf =>
      match NewRequest env "POST" p.Endpoint buf with
      | .error err => ⟨[], some ("failed to create request: " ++ err)⟩
      | .ok req0 =>
        let req := p.setHeaders env withGzip req0
        match env.client n req with
        | .error err => ⟨[req], some ("failed to send request: " ++ err)⟩
        | .ok resp =>
          if resp.StatusCode ≠ StatusNoContent then
            ⟨[req], some ("recieved unexpected response code from Loki: " ++ resp.Status)⟩
          else ⟨[req], none⟩

/-! ## The background goroutine -/

/-- What the `select` statement of `run` can receive. -/
inductive Event where
  | quit
  | entry (e : logEntry)
  | tick
deriving DecidableEq, Repr

/-- The local state of `run` and the record of what it did so far: the batches
handed to `send`, the requests handed to `client.Do`, the lines written to the
operational log, and the number of calls of `ticker.Reset`. -/
structure RunState where
  batch : logBatch
  sent : List logBatch
  requests : List Request
  log : List String
  timerResets : Nat
deriving DecidableEq, Repr

/-- State of `run` after lines 91-92. -/
def RunState.init : RunState :=
  { batch := [], sent := [], requests := [], log := [], timerResets := 0 }

/-- `Pusher.sendQuiet` (pusher.go, lines 131-135): the error of `send` is
logged, nothing else depends on it. -/
def Pusher.sendQuiet (p : Pusher) (env : Env) (s : RunState) (batch : logBatch) : RunState :=
  let r := p.send env s.requests.length batch
  { s with
    sent := s.sent ++ [batch]
    requests := s.requests ++ r.requests
    log := match r.err with
      | some err => s.log ++ ["[system] Drop log: " ++ err]
      | none => s.log }

/-- The buffer right after the append of line 106, where the flush decision of
line 107 is evaluated. -/
def RunState.appended (s : RunState) (e : logEntry) : logBatch :=
  s.batch ++ [e]

/-- The `entries` case of the loop (pusher.go, lines 105-111). -/
def Pusher.onEntry (p : Pusher) (env : Env) (s : RunState) (e : logEntry) : RunState :=
  let s1 : RunState := { s with batch := s.appended e }
  if p.BatchMaxSize ≤ (s1.batch.length : Int) then
    let s2 := p.sendQuiet env s1 s1.batch
    { s2 with batch := [], timerResets := s2.timerResets + 1 }
  else s1

/-- The timer case of the loop (pusher.go, lines 112-117). -/
def Pusher.onTick (p : Pusher) (env : Env) (s : RunState) : RunState :=
  let s1 : RunState :=
    if 0 < s.batch.length then
      let s2 := p.sendQuiet env s s.batch
      { s2 with batch := [] }
    else s
  { s1 with timerResets := s1.timerResets + 1 }

/-- The deferred function of `run` up to `waitGroup.Done` (pusher.go, lines
94-97). -/
def Pusher.onQuit (p : Pusher) (env : Env) (s : RunState) : RunState :=
  if 0 < s.batch.length then p.sendQuiet env s s.batch else s

/-- Where the goroutine is after a sequence of events: waiting in `select`,
returned (its deferred function done), or stopped by a run-time panic. -/
inductive RunResult where
  | selecting (s : RunState)
  | returned (s : RunState)
  | panicked (msg : String)
deriving DecidableEq, Repr

/-- The `for`/`select` loop of `run` (pusher.go, lines 101-119) on the events it
receives; events after `quit` are never received. -/
def Pusher.loop (p : Pusher) (env : Env) : RunState → List Event → RunResult
  | s, [] => .selecting s
  | s, .quit :: _ => .returned (p.onQuit env s)
  | s, .entry e :: rest => p.loop env (p.onEntry env s e) rest
  | s, .tick :: rest => p.loop env (p.onTick env s) rest

/-- `Pusher.run` (pusher.go, lines 90-120): `make` with a negative capacity
panics, before the deferred function is registered; otherwise the loop runs from
the empty buffer. Memory limits on the capacity are not modelled. -/
def Pusher.run (p : Pusher) (env : Env) (events : List Event) : RunResult :=
  if p.BatchMaxSize < 0 then .panicked "makeslice: cap out of range"
  else p.loop env RunState.init events

/-- The batches handed to `send` so far; none once the goroutine has panicked. -/
def RunResult.sent : RunResult → List logBatch
  | .selecting s => s.sent
  | .returned s => s.sent
  | .panicked _ => []

/-- The records of the `entries` events, in order. -/
def enqueued : List Event → List logEntry
  | [] => []
  | .entry e :: rest => e :: enqueued rest
  | _ :: rest => enqueued rest

/-! ## Construction and shutdown -/

/-- A pusher together with its background goroutine. -/
structure Process where
  pusher : Pusher
  goroutine : RunResult
deriving DecidableEq, Repr

/-- The configuration after the defaults and the endpoint normalisation of
`NewPusher` (pusher.go, lines 57-66). -/
def normalize (c : PusherConfig) : PusherConfig :=
  let c1 := if c.BatchMaxSize = 0 then { c with BatchMaxSize := defaultBatchMaxSize } else c
  let c2 := if c1.BatchMaxWait = 0 then { c1 with BatchMaxWait := defaultBatchMaxWait } else c1
  let c3 := if c2.Endpoint = "" then { c2 with Endpoint := defaultEndpoint } else c2
  { c3 with Endpoint := TrimSuffix c3.Endpoint "/" ++ "/loki/api/v1/push" }

/-- `NewPusher` (pusher.go, lines 56-79): the goroutine is started and has
received nothing yet. -/
def NewPusher (env : Env) (c : PusherConfig) : Process :=
  let p : Pusher := { toPusherConfig := normalize c, quitClosed := false, waitGroup := 1 }
  { pusher := p, goroutine := p.run env [] }

/-- How a call made by the host application ends. -/
inductive CallOutcome where
  | returned (proc : Process)
  | panicked (msg : String)
  | blocked
deriving DecidableEq, Repr

/-- `Pusher.Stop` (pusher.go, lines 85-88), with the goroutine's reaction made
part of the call. Closing a closed channel panics. Otherwise a goroutine waiting
in `select` receives `quit`, runs its deferred function and decrements the wait
group; `Wait` returns when the counter is zero and blocks for ever when no
goroutine is left to decrement it. -/
def Pusher.Stop (env : Env) (proc : Process) : CallOutcome :=
  if proc.pusher.quitClosed then .panicked "close of closed channel"
  else
    let p : Pusher := { proc.pusher with quitClosed := true }
    match proc.goroutine with
    | .selecting s =>
      let p1 : Pusher := { p with waitGroup := p.waitGroup - 1 }
      if p1.waitGroup = 0 then
        .returned { pusher := p1, goroutine := .returned (proc.pusher.onQuit env s) }
      else .blocked
    | g => if p.waitGroup = 0 then .returned { pusher := p, goroutine := g } else .blocked

/-- `LogrusLokiHook.Stop` (hook.go, lines 63-65). -/
def LogrusLokiHook.Stop (env : Env) (hook : Process) : CallOutcome :=
  Pusher.Stop env hook

/-! ## A concrete environment

Used to evaluate the model on concrete inputs. -/

/-- Bytes of a string of ASCII characters. -/
def asciiBytes (s : String) : Bytes :=
  s.data.map fun c => c.toNat.toUInt8

/-- Writes a list with a separator between its items. -/
def joinWith (sep : String) : List String → String
  | [] => ""
  | [x] => x
  | x :: rest => x ++ sep ++ joinWith sep rest

/-- A JSON rendering of a push payload for strings that need no escaping. -/
def sampleRender (data : lokiPushData) : String :=
  let quote (s : String) : String := "\"" ++ s ++ "\""
  let labels (l : Labels) : String :=
    "\x7b" ++ joinWith "," (l.map fun kv => quote kv.1 ++ ":" ++ quote kv.2) ++ "\x7d"
  let values (v : List (String × String)) : String :=
    "[" ++ joinWith "," (v.map fun tm => "[" ++ quote tm.1 ++ "," ++ quote tm.2 ++ "]") ++ "]"
  let one (st : stream) : String :=
    "\x7b\"stream\":" ++ labels st.Stream ++ ",\"values\":" ++ values st.Values ++ "\x7d"
  "\x7b\"streams\":[" ++ joinWith "," (data.Streams.map one) ++ "]\x7d"

/-- The bytes of `sampleRender`; never fails. -/
def sampleMarshal (data : lokiPushData) : Except String Bytes :=
  .ok (asciiBytes (sampleRender data))

/-- A framing codec standing for gzip: the two magic bytes of a gzip stream
followed by the data as written. -/
def sampleGunzip : Bytes → Option Bytes
  | 31 :: 139 :: rest => some rest
  | _ => none

/-- A URL parser that rejects control characters, as `net/url` does, and leaves
every other text as it is. -/
def sampleParseURL (url : String) : Except String String :=
  if url.data.any fun c => c.toNat < 32 ∨ c.toNat = 127 then
    .error "net/url: invalid control character in URL"
  else .ok url

/-- An environment whose remote end answers the sends in turn with the given
outcomes, and with 204 once they are used up. -/
def sampleEnv (outcomes : List (Except String Response)) : Env where
  marshal := sampleMarshal
  GzipWriter := Bytes
  gzipNewWriter := []
  gzipWrite := fun g data => .ok (g ++ data)
  gzipClose := fun g => .ok (31 :: 139 :: g)
  gunzip := sampleGunzip
  parseURL := sampleParseURL
  base64 := fun s => "b64(" ++ s ++ ")"
  client := fun n _ => outcomes.getD n (.ok ⟨204, "204 No Content"⟩)

/-- A record with the given nanosecond timestamp and message. -/
def sampleEntry (nanos : Nat) (msg : String) : logEntry :=
  { Time := ⟨nanos / 1000000000, nanos % 1000000000⟩, Level := "info", Message := msg }

/-- A configuration with the given endpoint and every other field left at its
zero value. -/
def sampleConfig (endpoint : String) : PusherConfig :=
  { Endpoint := endpoint, BatchMaxSize := 0, BatchMaxWait := 0, Labels := [],
    Username := "", Password := "", VisibleLevels := [] }

/-- A message of 3100 characters. -/
def longMessage : String := ⟨List.replicate 3100 'a'⟩

/-- A pusher with the given batch size, labelled `app=demo`, as `NewPusher`
leaves it. -/
def samplePusher (m : Int) (username password : String) : Pusher :=
  { Endpoint := "http://host:3100/loki/api/v1/push", BatchMaxSize := m,
    BatchMaxWait := defaultBatchMaxWait, Labels := [("app", "demo")],
    Username := username, Password := password, VisibleLevels := [],
    quitClosed := false, waitGroup := 1 }

/-- The sample pusher after the given records were enqueued one by one. -/
def sampleProcess (m : Int) (es : List logEntry) : Process :=
  { pusher := samplePusher m "" ""
    goroutine := (samplePusher m "" "").run (sampleEnv []) (es.map .entry) }

/-! ## Encoder -/

theorem decimalValue_toDigitsCore (fuel : Nat) :
    ∀ (n : Nat) (ds : List Char), n < fuel →
      (Nat.toDigitsCore 10 fuel n ds).foldl (fun acc c => 10 * acc + (c.toNat - 48)) 0 =
        ds.foldl (fun acc c => 10 * acc + (c.toNat - 48)) n := by
  induction fuel with
  | zero => intro n ds h; omega
  | succ fuel ih =>
    intro n ds h
    have hd : (Nat.digitChar (n % 10)).toNat - 48 = n % 10 := by
      have h10 : n % 10 < 10 := Nat.mod_lt _ (by decide)
      interval_cases (n % 10) <;> rfl
    simp only [Nat.toDigitsCore]
    split
    · rename_i h0
      simp only [List.foldl_cons, hd]
      congr 1
      omega
    · rename_i h0
      rw [ih (n / 10) _ (by omega)]
      simp only [List.foldl_cons, hd]
      congr 1
      omega

theorem decimalValue_toDigits (n : Nat) : decimalValue (Nat.toDigits 10 n) = n := by
  unfold decimalValue Nat.toDigits
  rw [decimalValue_toDigitsCore (n + 1) n [] (by omega)]
  rfl

/-- C1. The payload that `send` builds holds exactly one stream, the encoding
of the batch: its label map is the given label set, its value list has one pair
per record, the pair at each index is the record's Unix-nanosecond timestamp
rendered in base 10 (a minus sign for a negative value, then decimal digits whose
value is the magnitude) together with the record's message unchanged, and the
empty batch encodes to an empty value list. -/
theorem encode_payload_pairs (p : Pusher) (batch : logBatch) (labels : Labels) :
    (p.payload batch).Streams = [logBatch.Encode batch p.Labels] ∧
    (logBatch.Encode batch labels).Stream = labels ∧
    (logBatch.Encode batch labels).Values.length = batch.length ∧
    (∀ i : Nat, (logBatch.Encode batch labels).Values[i]? =
      batch[i]?.map fun e => (FormatInt e.Time.UnixNano 10, e.Message)) ∧
    (∀ t : Int, FormatInt t 10 =
        (if t < 0 then "-" else "") ++ (Nat.toDigits 10 t.natAbs).asString ∧
      decimalValue (Nat.toDigits 10 t.natAbs) = t.natAbs) ∧
    (logBatch.Encode [] labels).Values = [] := by
  refine ⟨rfl, rfl, ?_, ?_, ?_, rfl⟩
  · simp [logBatch.Encode]
  · intro i
    simp [logBatch.Encode]
  · intro t
    refine ⟨?_, decimalValue_toDigits _⟩
    unfold FormatInt
    split
    · rfl
    · simp

/-- C1 on a batch of two records. -/
theorem encode_payload_pairs_sample :
    (logBatch.Encode [sampleEntry 1700000000123456789 "hello", sampleEntry 5 "x"]
      [("app", "demo")]).Values = [("1700000000123456789", "hello"), ("5", "x")] ∧
    ((samplePusher 3 "" "").payload [sampleEntry 5 "x"]).Streams =
      [{ Stream := [("app", "demo")], Values := [("5", "x")] }] := by
  have h := encode_payload_pairs (samplePusher 3 "" "") [sampleEntry 5 "x"] [("app", "demo")]
  refine ⟨by decide, ?_⟩
  rw [h.1]
  decide

/-! ## Transport -/

/-- The request that `send` hands to the client when marshalling, buffering and
request creation succeed. -/
theorem send_requests_of_built (p : Pusher) (env : Env) (n : Nat) (batch : logBatch)
    (J buf : Bytes) (url : String) (hm : env.marshal (p.payload batch) = .ok J)
    (hb : fillBuffer env (decide (minGzipSize ≤ J.length)) J = .ok buf)
    (hu : env.parseURL p.Endpoint = .ok url) :
    (p.send env n batch).requests =
      [p.setHeaders env (decide (minGzipSize ≤ J.length))
        { Method := "POST", URL := url, Header := [], Body := buf }] := by
  simp only [Pusher.send, hm, hb, NewRequest, hu]
  split
  · rfl
  · split <;> rfl

/-- The error of `send` when marshalling, buffering and request creation
succeed: `nil` exactly for a response with status 204. -/
theorem send_err_of_built (p : Pusher) (env : Env) (n : Nat) (batch : logBatch)
    (J buf : Bytes) (url : String) (hm : env.marshal (p.payload batch) = .ok J)
    (hb : fillBuffer env (decide (minGzipSize ≤ J.length)) J = .ok buf)
    (hu : env.parseURL p.Endpoint = .ok url) :
    (p.send env n batch).err = none ↔
      ∃ resp, env.client n (p.setHeaders env (decide (minGzipSize ≤ J.length))
        { Method := "POST", URL := url, Header := [], Body := buf }) = .ok resp ∧
        resp.StatusCode = 204 := by
  simp only [Pusher.send, hm, hb, NewRequest, hu]
  split
  · rename_i err hc
    simp [hc]
  · rename_i resp hc
    simp only [hc]
    split
    · rename_i hs
      simp only [StatusNoContent] at hs
      simp [hs]
    · rename_i hs
      simp only [StatusNoContent, ne_eq, not_not] at hs
      simp [hs]

/-- Every request of `send` was built from the marshalled payload. -/
theorem send_requests_mem (p : Pusher) (env : Env) (n : Nat) (batch : logBatch)
    (req : Request) (hreq : req ∈ (p.send env n batch).requests) :
    ∃ J buf url, env.marshal (p.payload batch) = .ok J ∧
      fillBuffer env (decide (minGzipSize ≤ J.length)) J = .ok buf ∧
      env.parseURL p.Endpoint = .ok url ∧
      req = p.setHeaders env (decide (minGzipSize ≤ J.length))
        { Method := "POST", URL := url, Header := [], Body := buf } := by
  cases hm : env.marshal (p.payload batch) with
  | error err => simp [Pusher.send, hm] at hreq
  | ok J =>
    cases hb : fillBuffer env (decide (minGzipSize ≤ J.length)) J with
    | error err => simp [Pusher.send, hm, hb] at hreq
    | ok buf =>
      cases hu : env.parseURL p.Endpoint with
      | error err => simp [Pusher.send, hm, hb, NewRequest, hu] at hreq
      | ok u =>
        rw [send_requests_of_built p env n batch J buf u hm hb hu] at hreq
        exact ⟨J, buf, u, rfl, hb, rfl, by simpa using hreq⟩

/-- No call of `send` makes more than one request. -/
theorem send_requests_length_le (p : Pusher) (env : Env) (n : Nat) (batch : logBatch) :
    (p.send env n batch).requests.length ≤ 1 := by
  cases hm : env.marshal (p.payload batch) with
  | error err => simp [Pusher.send, hm]
  | ok J =>
    cases hb : fillBuffer env (decide (minGzipSize ≤ J.length)) J with
    | error err => simp [Pusher.send, hm, hb]
    | ok buf =>
      cases hu : env.parseURL p.Endpoint with
      | error err => simp [Pusher.send, hm, hb, NewRequest, hu]
      | ok u => simp [send_requests_of_built p env n batch J buf u hm hb hu]

/-- Without a request there is an error. -/
theorem send_err_of_no_request (p : Pusher) (env : Env) (n : Nat) (batch : logBatch)
    (h : (p.send env n batch).requests = []) : (p.send env n batch).err ≠ none := by
  cases hm : env.marshal (p.payload batch) with
  | error err => simp [Pusher.send, hm]
  | ok J =>
    cases hb : fillBuffer env (decide (minGzipSize ≤ J.length)) J with
    | error err => simp [Pusher.send, hm, hb]
    | ok buf =>
      cases hu : env.parseURL p.Endpoint with
      | error err => simp [Pusher.send, hm, hb, NewRequest, hu]
      | ok u => simp [send_requests_of_built p env n batch J buf u hm hb hu] at h

theorem lookup_filter_ne (h : List (String × String)) (key key' : String) (hk : key' ≠ key) :
    List.lookup key' (h.filter fun kv => kv.1 ≠ key) = List.lookup key' h := by
  induction h with
  | nil => rfl
  | cons kv rest ih =>
    obtain ⟨a, b⟩ := kv
    simp only [ne_eq, decide_not] at ih
    by_cases h1 : a = key
    · subst h1
      have h2 : (key' == a) = false := by simpa using hk
      simp [List.filter_cons, List.lookup_cons, h2, ih]
    · by_cases h3 : key' = a
      · subst h3
        simp [List.filter_cons, h1, List.lookup_cons]
      · have h4 : (key' == a) = false := by simpa using h3
        simp [List.filter_cons, h1, List.lookup_cons, h4, ih]

theorem Header.get_set (h : Header) (key value key' : String) :
    Header.Get (Header.Set h key value) key' =
      if key' = key then some value else Header.Get h key' := by
  unfold Header.Get Header.Set
  by_cases hk : key' = key
  · subst hk
    simp
  · have hb : (key' == key) = false := by simpa using hk
    rw [List.lookup_cons, hb, if_neg hk]
    exact lookup_filter_ne h key key' hk

theorem Header.get_nil (key : String) : Header.Get [] key = none := rfl

theorem setHeaders_fields (p : Pusher) (env : Env) (withGzip : Bool) (req0 : Request) :
    (p.setHeaders env withGzip req0).Method = req0.Method ∧
    (p.setHeaders env withGzip req0).URL = req0.URL ∧
    (p.setHeaders env withGzip req0).Body = req0.Body := by
  unfold Pusher.setHeaders Request.SetBasicAuth
  cases withGzip <;> by_cases h : p.Username ≠ "" ∧ p.Password ≠ "" <;> simp [h]

theorem setHeaders_contentEncoding (p : Pusher) (env : Env) (withGzip : Bool) (req0 : Request)
    (h0 : req0.Header = []) :
    Header.Get (p.setHeaders env withGzip req0).Header "Content-Encoding" =
      if withGzip then some "gzip" else none := by
  unfold Pusher.setHeaders Request.SetBasicAuth
  cases withGzip <;> by_cases h : p.Username ≠ "" ∧ p.Password ≠ "" <;>
    simp [h, Header.get_set, h0, Header.get_nil]

theorem setHeaders_authorization (p : Pusher) (env : Env) (withGzip : Bool) (req0 : Request)
    (h0 : req0.Header = []) :
    Header.Get (p.setHeaders env withGzip req0).Header "Authorization" =
      if p.Username ≠ "" ∧ p.Password ≠ "" then
        some ("Basic " ++ env.base64 (p.Username ++ ":" ++ p.Password))
      else none := by
  unfold Pusher.setHeaders Request.SetBasicAuth
  cases withGzip <;> by_cases h : p.Username ≠ "" ∧ p.Password ≠ "" <;>
    simp [h, Header.get_set, h0, Header.get_nil]

theorem minGzipSize_eq : minGzipSize = 3072 := rfl

theorem fillBuffer_plain (env : Env) (J buf : Bytes) (h : fillBuffer env false J = .ok buf) :
    buf = J := by
  simp [fillBuffer] at h
  exact h.symm

theorem fillBuffer_gzip (env : Env) (J buf : Bytes) (h : fillBuffer env true J = .ok buf) :
    ∃ g, env.gzipWrite env.gzipNewWriter J = .ok g ∧ env.gzipClose g = .ok buf := by
  simp only [fillBuffer, if_true] at h
  cases hw : env.gzipWrite env.gzipNewWriter J with
  | error err => simp [hw] at h
  | ok g =>
    cases hc : env.gzipClose g with
    | error err => simp [hw, hc] at h
    | ok out =>
      simp only [hw, hc, Except.ok.injEq] at h
      exact ⟨g, rfl, by rw [hc, h]⟩

/-- C6. With `J` the JSON serialization of the payload: a request of `send` for a
`J` shorter than 3072 bytes has body `J` and no `Content-Encoding` header; for a
`J` of 3072 bytes or more its body is what the gzip writer produced from one
write of exactly `J` followed by close, so that it decompresses to `J`, and it
carries `Content-Encoding: gzip`; the header is present iff `J` has at least 3072
bytes. The request is made whenever the endpoint parses and, for the compressed
case, the writer succeeds. -/
theorem send_gzip_threshold (p : Pusher) (env : Env) (n : Nat) (batch : logBatch) (J : Bytes)
    (hm : env.marshal (p.payload batch) = .ok J) :
    (∀ req ∈ (p.send env n batch).requests,
      (J.length < 3072 → req.Body = J ∧ Header.Get req.Header "Content-Encoding" = none) ∧
      (3072 ≤ J.length →
        (∃ g, env.gzipWrite env.gzipNewWriter J = .ok g ∧ env.gzipClose g = .ok req.Body) ∧
        Header.Get req.Header "Content-Encoding" = some "gzip" ∧
        (env.GzipRoundTrip → env.gunzip req.Body = some J)) ∧
      (Header.Get req.Header "Content-Encoding" = some "gzip" ↔ 3072 ≤ J.length)) ∧
    ((∃ url, env.parseURL p.Endpoint = .ok url) →
      (J.length < 3072 ∨
        ∃ g out, env.gzipWrite env.gzipNewWriter J = .ok g ∧ env.gzipClose g = .ok out) →
      (p.send env n batch).requests.length = 1) := by
  constructor
  · intro req hreq
    obtain ⟨J', buf, url, hm', hb, -, rfl⟩ := send_requests_mem p env n batch req hreq
    rw [hm] at hm'
    cases hm'
    have hf := setHeaders_fields p env (decide (minGzipSize ≤ J.length))
      { Method := "POST", URL := url, Header := [], Body := buf }
    have hce := setHeaders_contentEncoding p env (decide (minGzipSize ≤ J.length))
      { Method := "POST", URL := url, Header := [], Body := buf } rfl
    rw [hf.2.2, hce]
    by_cases h : 3072 ≤ J.length
    · have hd : decide (minGzipSize ≤ J.length) = true := by simpa [minGzipSize_eq] using h
      rw [hd] at hb ⊢
      obtain ⟨g, hw, hc⟩ := fillBuffer_gzip env J buf hb
      refine ⟨fun hlt => absurd h (by omega), fun _ => ⟨⟨g, hw, hc⟩, rfl, fun hrt => hrt J g buf hw hc⟩, ?_⟩
      simp [h]
    · have hd : decide (minGzipSize ≤ J.length) = false := by simpa [minGzipSize_eq] using h
      rw [hd] at hb ⊢
      have hJ := fillBuffer_plain env J buf hb
      refine ⟨fun _ => ⟨hJ, rfl⟩, fun h' => absurd h' h, ?_⟩
      simp [h]
  · rintro ⟨url, hu⟩ hcase
    have hb : ∃ buf, fillBuffer env (decide (minGzipSize ≤ J.length)) J = .ok buf := by
      by_cases h : 3072 ≤ J.length
      · have hd : decide (minGzipSize ≤ J.length) = true := by simpa [minGzipSize_eq] using h
        rcases hcase with hlt | ⟨g, out, hw, hc⟩
        · omega
        · exact ⟨out, by simp [hd, fillBuffer, hw, hc]⟩
      · have hd : decide (minGzipSize ≤ J.length) = false := by simpa [minGzipSize_eq] using h
        exact ⟨J, by simp [hd, fillBuffer]⟩
    obtain ⟨buf, hb⟩ := hb
    rw [send_requests_of_built p env n batch J buf url hm hb hu]
    rfl

theorem sampleEnv_gzipRoundTrip (outcomes : List (Except String Response)) :
    (sampleEnv outcomes).GzipRoundTrip := by
  intro data g out hw hc
  simp only [sampleEnv, List.nil_append, Except.ok.injEq] at hw hc
  subst hw
  subst hc
  rfl


theorem asciiBytes_length (s : String) : (asciiBytes s).length = s.length := by
  unfold asciiBytes
  rw [List.length_map]
  rfl

theorem sampleRender_length_ge (labels : Labels) (ts msg : String) :
    msg.length ≤ (asciiBytes (sampleRender ⟨[⟨labels, [(ts, msg)]⟩]⟩)).length := by
  rw [asciiBytes_length]
  simp only [sampleRender, joinWith, List.map, String.length_append]
  omega

theorem longMessage_length : longMessage.length = 3100 := by
  unfold longMessage String.length
  exact List.length_replicate _ _

theorem longPayload_length :
    3072 ≤ (asciiBytes ((samplePusher 3 "" "").payload [sampleEntry 5 longMessage]
      |> sampleRender)).length := by
  have h := sampleRender_length_ge [("app", "demo")] (FormatInt (sampleEntry 5 longMessage).Time.UnixNano 10) longMessage
  have h2 := longMessage_length
  have h3 : (samplePusher 3 "" "").payload [sampleEntry 5 longMessage] = ⟨[⟨[("app", "demo")], [(FormatInt (sampleEntry 5 longMessage).Time.UnixNano 10, longMessage)]⟩]⟩ := rfl
  rw [h3]
  show 3072 ≤ (asciiBytes (sampleRender _)).length
  omega

set_option maxRecDepth 8000 in
/-- C6 on a short and on a long payload. -/
theorem send_gzip_threshold_sample :
    (∀ req ∈ ((samplePusher 3 "" "").send (sampleEnv []) 0 [sampleEntry 5 "x"]).requests,
      req.Body = asciiBytes ((samplePusher 3 "" "").payload [sampleEntry 5 "x"] |> sampleRender) ∧
      Header.Get req.Header "Content-Encoding" = none) ∧
    (∀ req ∈ ((samplePusher 3 "" "").send (sampleEnv []) 0 [sampleEntry 5 longMessage]).requests,
      Header.Get req.Header "Content-Encoding" = some "gzip" ∧
      sampleGunzip req.Body = some (asciiBytes
        ((samplePusher 3 "" "").payload [sampleEntry 5 longMessage] |> sampleRender))) ∧
    ((samplePusher 3 "" "").send (sampleEnv []) 0 [sampleEntry 5 "x"]).requests.length = 1 ∧
    ((samplePusher 3 "" "").send (sampleEnv []) 0 [sampleEntry 5 longMessage]).requests.length = 1 := by
  have hs := send_gzip_threshold (samplePusher 3 "" "") (sampleEnv []) 0 [sampleEntry 5 "x"]
    (asciiBytes ((samplePusher 3 "" "").payload [sampleEntry 5 "x"] |> sampleRender)) rfl
  have hl := send_gzip_threshold (samplePusher 3 "" "") (sampleEnv []) 0
    [sampleEntry 5 longMessage]
    (asciiBytes ((samplePusher 3 "" "").payload [sampleEntry 5 longMessage] |> sampleRender)) rfl
  have hsmall : (asciiBytes ((samplePusher 3 "" "").payload [sampleEntry 5 "x"]
      |> sampleRender)).length < 3072 := by decide
  have hlong := longPayload_length
  have hurl : ∃ url, (sampleEnv []).parseURL (samplePusher 3 "" "").Endpoint = .ok url :=
    ⟨_, rfl⟩
  refine ⟨fun req hreq => (hs.1 req hreq).1 hsmall, fun req hreq => ?_,
    hs.2 hurl (Or.inl hsmall), hl.2 hurl (Or.inr ⟨_, _, rfl, rfl⟩)⟩
  have h := (hl.1 req hreq).2.1 hlong
  exact ⟨h.2.1, h.2.2 (sampleEnv_gzipRoundTrip [])⟩

/-- C7. A request of `send` carries an `Authorization` header if and only if
both the configured user name and the configured password are non-empty; the
header is then `Basic` followed by the base64 encoding of `username:password`,
and with either one empty the request has no `Authorization` header. -/
theorem send_basic_auth_iff (p : Pusher) (env : Env) (n : Nat) (batch : logBatch)
    (req : Request) (hreq : req ∈ (p.send env n batch).requests) :
    (Header.Get req.Header "Authorization" ≠ none ↔ p.Username ≠ "" ∧ p.Password ≠ "") ∧
    (p.Username ≠ "" ∧ p.Password ≠ "" →
      Header.Get req.Header "Authorization" =
        some ("Basic " ++ env.base64 (p.Username ++ ":" ++ p.Password))) ∧
    (p.Username = "" ∨ p.Password = "" → Header.Get req.Header "Authorization" = none) := by
  obtain ⟨J, buf, url, -, -, -, rfl⟩ := send_requests_mem p env n batch req hreq
  rw [setHeaders_authorization p env _ _ rfl]
  by_cases h : p.Username ≠ "" ∧ p.Password ≠ ""
  · rw [if_pos h]
    refine ⟨by simp [h], fun _ => rfl, fun h' => ?_⟩
    rcases h' with h' | h'
    · exact absurd h' h.1
    · exact absurd h' h.2
  · rw [if_neg h]
    exact ⟨by simp [h], fun h' => absurd h' h, fun _ => rfl⟩

set_option maxRecDepth 8000 in
/-- C7 with both credentials, and with each one missing. -/
theorem send_basic_auth_iff_sample :
    ((samplePusher 3 "user" "pass").send (sampleEnv []) 0 [sampleEntry 5 "x"]).requests.map
        (fun req => Header.Get req.Header "Authorization") = [some "Basic b64(user:pass)"] ∧
    ((samplePusher 3 "user" "").send (sampleEnv []) 0 [sampleEntry 5 "x"]).requests.map
        (fun req => Header.Get req.Header "Authorization") = [none] ∧
    ((samplePusher 3 "" "pass").send (sampleEnv []) 0 [sampleEntry 5 "x"]).requests.map
        (fun req => Header.Get req.Header "Authorization") = [none] ∧
    (∀ req ∈ ((samplePusher 3 "user" "pass").send (sampleEnv []) 0 [sampleEntry 5 "x"]).requests,
      Header.Get req.Header "Authorization" = some "Basic b64(user:pass)") :=
  ⟨by decide, by decide, by decide, fun req hreq =>
    (send_basic_auth_iff (samplePusher 3 "user" "pass") (sampleEnv []) 0 [sampleEntry 5 "x"]
      req hreq).2.1 (by decide)⟩

/-- C8. `send` returns `nil` if and only if its single request got a response
whose status code is exactly 204; any other status code and any transport error
give an error; it hands at most one request to the client, and exactly one
whenever the request could be built. -/
theorem send_success_iff_204 (p : Pusher) (env : Env) (n : Nat) (batch : logBatch) :
    ((p.send env n batch).err = none ↔
      ∃ req resp, (p.send env n batch).requests = [req] ∧
        env.client n req = .ok resp ∧ resp.StatusCode = 204) ∧
    (∀ req resp, (p.send env n batch).requests = [req] → env.client n req = .ok resp →
      resp.StatusCode ≠ 204 → (p.send env n batch).err ≠ none) ∧
    (∀ req err, (p.send env n batch).requests = [req] → env.client n req = .error err →
      (p.send env n batch).err ≠ none) ∧
    (p.send env n batch).requests.length ≤ 1 ∧
    (∀ J buf url, env.marshal (p.payload batch) = .ok J →
      fillBuffer env (decide (minGzipSize ≤ J.length)) J = .ok buf →
      env.parseURL p.Endpoint = .ok url → (p.send env n batch).requests.length = 1) := by
  have key : (p.send env n batch).err = none ↔
      ∃ req resp, (p.send env n batch).requests = [req] ∧
        env.client n req = .ok resp ∧ resp.StatusCode = 204 := by
    constructor
    · intro herr
      cases hr : (p.send env n batch).requests with
      | nil => exact absurd herr (send_err_of_no_request p env n batch hr)
      | cons req rest =>
        have hmem : req ∈ (p.send env n batch).requests := by simp [hr]
        obtain ⟨J, buf, url, hm, hb, hu, rfl⟩ := send_requests_mem p env n batch req hmem
        have hreqs := send_requests_of_built p env n batch J buf url hm hb hu
        obtain ⟨resp, hc, hs⟩ := (send_err_of_built p env n batch J buf url hm hb hu).1 herr
        rw [hreqs] at hr
        exact ⟨_, resp, hr.symm ▸ rfl, hc, hs⟩
    · rintro ⟨req, resp, hr, hc, hs⟩
      have hmem : req ∈ (p.send env n batch).requests := by simp [hr]
      obtain ⟨J, buf, url, hm, hb, hu, rfl⟩ := send_requests_mem p env n batch req hmem
      exact (send_err_of_built p env n batch J buf url hm hb hu).2 ⟨resp, hc, hs⟩
  refine ⟨key, ?_, ?_, send_requests_length_le p env n batch, ?_⟩
  · intro req resp hr hc hs herr
    obtain ⟨req', resp', hr', hc', hs'⟩ := key.1 herr
    rw [hr] at hr'
    cases hr'
    rw [hc] at hc'
    cases hc'
    exact hs hs'
  · intro req err hr hc herr
    obtain ⟨req', resp', hr', hc', -⟩ := key.1 herr
    rw [hr] at hr'
    cases hr'
    rw [hc] at hc'
    cases hc'
  · intro J buf url hm hb hu
    rw [send_requests_of_built p env n batch J buf url hm hb hu]
    rfl

set_option maxRecDepth 8000 in
/-- C8 for the statuses 204 and 200 and for a refused connection. -/
theorem send_success_iff_204_sample :
    ((samplePusher 3 "" "").send (sampleEnv [.ok ⟨204, "204 No Content"⟩]) 0
      [sampleEntry 5 "x"]).err = none ∧
    ((samplePusher 3 "" "").send (sampleEnv [.ok ⟨200, "200 OK"⟩]) 0
      [sampleEntry 5 "x"]).err =
        some "recieved unexpected response code from Loki: 200 OK" ∧
    ((samplePusher 3 "" "").send (sampleEnv [.error "connection refused"]) 0
      [sampleEntry 5 "x"]).err = some "failed to send request: connection refused" ∧
    ((samplePusher 3 "" "").send (sampleEnv [.ok ⟨200, "200 OK"⟩]) 0
      [sampleEntry 5 "x"]).requests.length = 1 :=
  ⟨by decide, by decide, by decide,
    (send_success_iff_204 (samplePusher 3 "" "") (sampleEnv [.ok ⟨200, "200 OK"⟩]) 0
      [sampleEntry 5 "x"]).2.2.2.2 _ _ _ rfl rfl rfl⟩

/-! ## Endpoint normalisation -/

theorem TrimSuffix_append (t suffix : String) : TrimSuffix (t ++ suffix) suffix = t := by
  have h : HasSuffix (t ++ suffix) suffix := by
    unfold HasSuffix
    rw [String.data_append]
    exact List.suffix_append _ _
  unfold TrimSuffix
  rw [if_pos h]
  simp [String.data_append]

theorem TrimSuffix_of_not_hasSuffix (s suffix : String) (h : ¬ HasSuffix s suffix) :
    TrimSuffix s suffix = s := by
  unfold TrimSuffix
  rw [if_neg h]

theorem hasSuffix_iff (s suffix : String) : HasSuffix s suffix ↔ ∃ t, s = t ++ suffix := by
  unfold HasSuffix
  constructor
  · rintro ⟨l, hl⟩
    exact ⟨⟨l⟩, String.ext (by rw [String.data_append, hl])⟩
  · rintro ⟨t, rfl⟩
    rw [String.data_append]
    exact List.suffix_append _ _

theorem normalize_endpoint (c : PusherConfig) :
    (normalize c).Endpoint =
      TrimSuffix (if c.Endpoint = "" then defaultEndpoint else c.Endpoint) "/" ++
        "/loki/api/v1/push" := by
  unfold normalize
  by_cases h1 : c.BatchMaxSize = 0 <;> by_cases h2 : c.BatchMaxWait = 0 <;>
    by_cases h3 : c.Endpoint = "" <;> simp [h1, h2, h3]

theorem append_slash_slash (u : String) : u ++ "//" = (u ++ "/") ++ "/" := by
  rw [String.append_assoc]
  rfl

theorem append_right_cancel (a b c : String) (h : a ++ c = b ++ c) : a = b := by
  have hd : (a ++ c).data = (b ++ c).data := by rw [h]
  rw [String.data_append, String.data_append] at hd
  exact String.ext (List.append_cancel_right hd)

theorem hasSuffix_trimSuffix_slash (e : String) :
    HasSuffix (TrimSuffix e "/") "/" ↔ HasSuffix e "//" := by
  by_cases h : HasSuffix e "/"
  · obtain ⟨t, rfl⟩ := (hasSuffix_iff e "/").1 h
    rw [TrimSuffix_append, hasSuffix_iff, hasSuffix_iff]
    constructor
    · rintro ⟨u, rfl⟩
      exact ⟨u, (append_slash_slash u).symm⟩
    · rintro ⟨u, hu⟩
      rw [append_slash_slash] at hu
      exact ⟨u, append_right_cancel _ _ _ hu⟩
  · rw [TrimSuffix_of_not_hasSuffix e "/" h]
    constructor
    · intro h'
      exact absurd h' h
    · intro h'
      obtain ⟨u, rfl⟩ := (hasSuffix_iff e "//").1 h'
      exact absurd ((hasSuffix_iff _ _).2 ⟨u ++ "/", append_slash_slash u⟩) h

/-- C9, as the code has it. With `e` the configured endpoint, or the default
`http://localhost:3100` when none is configured, `NewPusher` sets the endpoint
of the pusher to `e` with one trailing slash removed, if it has one, followed by
`/loki/api/v1/push`: an `e` that ends in a slash loses exactly that slash, an `e`
without trailing slash is kept as is before the suffix, and the text before the
suffix ends in a slash exactly when `e` ends in two slashes. The URL of every
request of `send` is what the URL parser of `http.NewRequest` returns for that
endpoint string. -/
theorem newPusher_endpoint (env : Env) (c : PusherConfig) (e : String)
    (he : e = if c.Endpoint = "" then defaultEndpoint else c.Endpoint) :
    (NewPusher env c).pusher.Endpoint = TrimSuffix e "/" ++ "/loki/api/v1/push" ∧
    (∀ t, e = t ++ "/" → TrimSuffix e "/" = t) ∧
    (¬ HasSuffix e "/" → TrimSuffix e "/" = e) ∧
    (HasSuffix (TrimSuffix e "/") "/" ↔ HasSuffix e "//") ∧
    (∀ n batch, ∀ req ∈ ((NewPusher env c).pusher.send env n batch).requests,
      env.parseURL (TrimSuffix e "/" ++ "/loki/api/v1/push") = .ok req.URL) := by
  have hE : (NewPusher env c).pusher.Endpoint = TrimSuffix e "/" ++ "/loki/api/v1/push" := by
    rw [he]
    exact normalize_endpoint c
  refine ⟨hE, ?_, TrimSuffix_of_not_hasSuffix e "/", hasSuffix_trimSuffix_slash e, ?_⟩
  · rintro t rfl
    exact TrimSuffix_append t "/"
  · intro n batch req hreq
    obtain ⟨J, buf, url, -, -, hu, rfl⟩ := send_requests_mem _ env n batch req hreq
    rw [(setHeaders_fields _ env _ _).2.1, ← hE]
    exact hu

/-- C9 on an endpoint with one trailing slash, on one without, and on the empty
endpoint. -/
theorem newPusher_endpoint_sample :
    (NewPusher (sampleEnv []) (sampleConfig "http://host:3100/")).pusher.Endpoint = "http://host:3100/loki/api/v1/push" ∧
    (NewPusher (sampleEnv []) (sampleConfig "http://host:3100")).pusher.Endpoint = "http://host:3100/loki/api/v1/push" ∧
    (NewPusher (sampleEnv []) (sampleConfig "")).pusher.Endpoint = "http://localhost:3100/loki/api/v1/push" := by
  refine ⟨?_, ?_, ?_⟩
  · rw [(newPusher_endpoint (sampleEnv []) _ "http://host:3100/" (by decide)).1]
    decide
  · rw [(newPusher_endpoint (sampleEnv []) _ "http://host:3100" (by decide)).1]
    decide
  · rw [(newPusher_endpoint (sampleEnv []) _ "http://localhost:3100" (by decide)).1]
    decide

/-- C9 as stated fails: configured with `http://host:3100//`, the URL is
`http://host:3100//loki/api/v1/push`, where the text before the suffix ends in a
slash. -/
theorem newPusher_endpoint_double_slash :
    ¬ ∀ (c : PusherConfig) (pre : String),
      (NewPusher (sampleEnv []) c).pusher.Endpoint = pre ++ "/loki/api/v1/push" →
        ¬ HasSuffix pre "/" := by
  intro h
  exact h (sampleConfig "http://host:3100//") "http://host:3100/" (by decide) (by decide)

/-! ## The accumulator -/

theorem onEntry_flush (p : Pusher) (env : Env) (s : RunState) (e : logEntry)
    (h : p.BatchMaxSize ≤ ((s.batch ++ [e]).length : Int)) :
    (p.onEntry env s e).batch = [] ∧ (p.onEntry env s e).sent = s.sent ++ [s.batch ++ [e]] := by
  simp only [Pusher.onEntry, RunState.appended, if_pos h, Pusher.sendQuiet, and_self]

theorem onEntry_keep (p : Pusher) (env : Env) (s : RunState) (e : logEntry)
    (h : ¬ p.BatchMaxSize ≤ ((s.batch ++ [e]).length : Int)) :
    (p.onEntry env s e).batch = s.batch ++ [e] ∧ (p.onEntry env s e).sent = s.sent := by
  simp only [Pusher.onEntry, RunState.appended, if_neg h, and_self]

theorem onTick_flush (p : Pusher) (env : Env) (s : RunState) (h : 0 < s.batch.length) :
    (p.onTick env s).batch = [] ∧ (p.onTick env s).sent = s.sent ++ [s.batch] := by
  simp only [Pusher.onTick, if_pos h, Pusher.sendQuiet, and_self]

theorem onTick_keep (p : Pusher) (env : Env) (s : RunState) (h : ¬ 0 < s.batch.length) :
    (p.onTick env s).batch = s.batch ∧ (p.onTick env s).sent = s.sent := by
  simp only [Pusher.onTick, if_neg h, and_self]

theorem onQuit_flush (p : Pusher) (env : Env) (s : RunState) (h : 0 < s.batch.length) :
    (p.onQuit env s).sent = s.sent ++ [s.batch] := by
  simp only [Pusher.onQuit, if_pos h, Pusher.sendQuiet]

theorem onQuit_keep (p : Pusher) (env : Env) (s : RunState) (h : ¬ 0 < s.batch.length) :
    (p.onQuit env s).sent = s.sent := by
  simp only [Pusher.onQuit, if_neg h]

/-- The loop on a sequence of events followed by more events. -/
theorem loop_append (p : Pusher) (env : Env) (rest : List Event) :
    ∀ (evs : List Event) (s : RunState),
      p.loop env s (evs ++ rest) =
        match p.loop env s evs with
        | .selecting s' => p.loop env s' rest
        | r => r := by
  intro evs
  induction evs with
  | nil => intro s; rfl
  | cons ev evs ih =>
    intro s
    cases ev with
    | quit => rfl
    | entry e => exact ih _
    | tick => exact ih _

/-- Without `quit` the goroutine stays in its loop, and what it sent followed
by what it holds is what it had sent and held followed by what was enqueued; the
buffer stays below the maximum and no sent batch is empty or above it. -/
theorem loop_selecting (p : Pusher) (env : Env) (hm : 1 ≤ p.BatchMaxSize) :
    ∀ (evs : List Event) (s : RunState), Event.quit ∉ evs →
      (s.batch.length : Int) < p.BatchMaxSize →
      (∀ b ∈ s.sent, b ≠ [] ∧ (b.length : Int) ≤ p.BatchMaxSize) →
      ∃ s', p.loop env s evs = .selecting s' ∧
        s'.sent.flatten ++ s'.batch = s.sent.flatten ++ s.batch ++ enqueued evs ∧
        (s'.batch.length : Int) < p.BatchMaxSize ∧
        (∀ b ∈ s'.sent, b ≠ [] ∧ (b.length : Int) ≤ p.BatchMaxSize) := by
  intro evs
  induction evs with
  | nil =>
    intro s _ hb hs
    exact ⟨s, rfl, by simp [enqueued], hb, hs⟩
  | cons ev evs ih =>
    intro s hq hb hs
    have hq' : Event.quit ∉ evs := fun h => hq (List.mem_cons_of_mem _ h)
    cases ev with
    | quit => exact absurd (List.mem_cons_self _ _) hq
    | entry e =>
      have hlen : ((s.batch ++ [e]).length : Int) = s.batch.length + 1 := by simp
      by_cases h : p.BatchMaxSize ≤ ((s.batch ++ [e]).length : Int)
      · obtain ⟨h1, h2⟩ := onEntry_flush p env s e h
        obtain ⟨s', hl, hj, hb', hs'⟩ := ih (p.onEntry env s e) hq' (by rw [h1]; simpa using hm)
          (by
            intro b hbm
            rw [h2, List.mem_append, List.mem_singleton] at hbm
            rcases hbm with hbm | rfl
            · exact hs b hbm
            · exact ⟨by simp, by omega⟩)
        refine ⟨s', hl, ?_, hb', hs'⟩
        rw [hj, h1, h2]
        simp [enqueued]
      · obtain ⟨h1, h2⟩ := onEntry_keep p env s e h
        obtain ⟨s', hl, hj, hb', hs'⟩ := ih (p.onEntry env s e) hq' (by rw [h1]; omega)
          (by rw [h2]; exact hs)
        refine ⟨s', hl, ?_, hb', hs'⟩
        rw [hj, h1, h2]
        simp [enqueued]
    | tick =>
      by_cases h : 0 < s.batch.length
      · obtain ⟨h1, h2⟩ := onTick_flush p env s h
        obtain ⟨s', hl, hj, hb', hs'⟩ := ih (p.onTick env s) hq' (by rw [h1]; simpa using hm)
          (by
            intro b hbm
            rw [h2, List.mem_append, List.mem_singleton] at hbm
            rcases hbm with hbm | rfl
            · exact hs b hbm
            · exact ⟨List.ne_nil_of_length_pos h, by omega⟩)
        refine ⟨s', hl, ?_, hb', hs'⟩
        rw [hj, h1, h2]
        simp [enqueued]
      · obtain ⟨h1, h2⟩ := onTick_keep p env s h
        obtain ⟨s', hl, hj, hb', hs'⟩ := ih (p.onTick env s) hq' (by rw [h1]; exact hb)
          (by rw [h2]; exact hs)
        refine ⟨s', hl, ?_, hb', hs'⟩
        rw [hj, h1, h2]
        simp [enqueued]

theorem onEntry_indep (p : Pusher) (env env' : Env) (s s' : RunState) (e : logEntry)
    (hb : s.batch = s'.batch) (hs : s.sent = s'.sent) :
    (p.onEntry env s e).batch = (p.onEntry env' s' e).batch ∧
    (p.onEntry env s e).sent = (p.onEntry env' s' e).sent := by
  by_cases h : p.BatchMaxSize ≤ ((s.batch ++ [e]).length : Int)
  · have h' : p.BatchMaxSize ≤ ((s'.batch ++ [e]).length : Int) := by rw [← hb]; exact h
    rw [(onEntry_flush p env s e h).1, (onEntry_flush p env s e h).2,
      (onEntry_flush p env' s' e h').1, (onEntry_flush p env' s' e h').2, hb, hs]
    exact ⟨rfl, rfl⟩
  · have h' : ¬ p.BatchMaxSize ≤ ((s'.batch ++ [e]).length : Int) := by rw [← hb]; exact h
    rw [(onEntry_keep p env s e h).1, (onEntry_keep p env s e h).2,
      (onEntry_keep p env' s' e h').1, (onEntry_keep p env' s' e h').2, hb, hs]
    exact ⟨rfl, rfl⟩

theorem onTick_indep (p : Pusher) (env env' : Env) (s s' : RunState)
    (hb : s.batch = s'.batch) (hs : s.sent = s'.sent) :
    (p.onTick env s).batch = (p.onTick env' s').batch ∧
    (p.onTick env s).sent = (p.onTick env' s').sent := by
  by_cases h : 0 < s.batch.length
  · have h' : 0 < s'.batch.length := by rw [← hb]; exact h
    rw [(onTick_flush p env s h).1, (onTick_flush p env s h).2,
      (onTick_flush p env' s' h').1, (onTick_flush p env' s' h').2, hb, hs]
    exact ⟨rfl, rfl⟩
  · have h' : ¬ 0 < s'.batch.length := by rw [← hb]; exact h
    rw [(onTick_keep p env s h).1, (onTick_keep p env s h).2,
      (onTick_keep p env' s' h').1, (onTick_keep p env' s' h').2, hb, hs]
    exact ⟨rfl, rfl⟩

theorem onQuit_indep (p : Pusher) (env env' : Env) (s s' : RunState)
    (hb : s.batch = s'.batch) (hs : s.sent = s'.sent) :
    (p.onQuit env s).sent = (p.onQuit env' s').sent := by
  by_cases h : 0 < s.batch.length
  · have h' : 0 < s'.batch.length := by rw [← hb]; exact h
    rw [onQuit_flush p env s h, onQuit_flush p env' s' h', hb, hs]
  · have h' : ¬ 0 < s'.batch.length := by rw [← hb]; exact h
    rw [onQuit_keep p env s h, onQuit_keep p env' s' h', hs]

/-- The batches handed to `send` do not depend on what the library and the
remote end answer. -/
theorem loop_sent_indep (p : Pusher) (env env' : Env) :
    ∀ (evs : List Event) (s s' : RunState), s.batch = s'.batch → s.sent = s'.sent →
      (p.loop env s evs).sent = (p.loop env' s' evs).sent := by
  intro evs
  induction evs with
  | nil => intro s s' _ hs; exact hs
  | cons ev evs ih =>
    intro s s' hb hs
    cases ev with
    | quit => exact onQuit_indep p env env' s s' hb hs
    | entry e =>
      exact ih _ _ (onEntry_indep p env env' s s' e hb hs).1 (onEntry_indep p env env' s s' e hb hs).2
    | tick =>
      exact ih _ _ (onTick_indep p env env' s s' hb hs).1 (onTick_indep p env env' s s' hb hs).2

theorem run_eq_loop (p : Pusher) (env : Env) (evs : List Event) (hm : 1 ≤ p.BatchMaxSize) :
    p.run env evs = p.loop env RunState.init evs := by
  unfold Pusher.run
  rw [if_neg (by omega)]

/-- The goroutine on events without `quit`, started from the empty buffer. -/
theorem run_selecting (p : Pusher) (env : Env) (evs : List Event) (hm : 1 ≤ p.BatchMaxSize)
    (hq : Event.quit ∉ evs) :
    ∃ s, p.run env evs = .selecting s ∧
      s.sent.flatten ++ s.batch = enqueued evs ∧
      (s.batch.length : Int) < p.BatchMaxSize ∧
      (∀ b ∈ s.sent, b ≠ [] ∧ (b.length : Int) ≤ p.BatchMaxSize) := by
  obtain ⟨s, hl, hj, hb, hs⟩ := loop_selecting p env hm evs RunState.init hq
    (by simpa [RunState.init] using hm) (by simp [RunState.init])
  refine ⟨s, by rw [run_eq_loop p env evs hm, hl], ?_, hb, hs⟩
  simpa [RunState.init] using hj

/-- The goroutine on events without `quit` followed by `quit`. -/
theorem run_quit (p : Pusher) (env : Env) (evs : List Event) (s : RunState)
    (h : p.run env evs = .selecting s) :
    p.run env (evs ++ [.quit]) = .returned (p.onQuit env s) := by
  unfold Pusher.run at h ⊢
  by_cases hneg : p.BatchMaxSize < 0
  · rw [if_pos hneg] at h
    cases h
  · rw [if_neg hneg] at h ⊢
    rw [loop_append, h]
    rfl

/-- C2. For a maximum batch size of at least 1, after any sequence of enqueue
and timer events followed by shutdown the goroutine has returned, and the
batches it handed to `send`, concatenated in send order with the shutdown flush
included, are exactly the enqueued records in arrival order; no batch is empty,
and which batches are handed to `send` does not depend on the outcome of any
send. -/
theorem run_sent_concat_eq_enqueued (p : Pusher) (env : Env) (evs : List Event)
    (hm : 1 ≤ p.BatchMaxSize) (hq : Event.quit ∉ evs) :
    (∃ s, p.run env (evs ++ [.quit]) = .returned s) ∧
    (p.run env (evs ++ [.quit])).sent.flatten = enqueued evs ∧
    (∀ b ∈ (p.run env (evs ++ [.quit])).sent, b ≠ []) ∧
    (∀ env' : Env, (p.run env' (evs ++ [.quit])).sent = (p.run env (evs ++ [.quit])).sent) := by
  obtain ⟨s, hr, hj, hb, hs⟩ := run_selecting p env evs hm hq
  have hret := run_quit p env evs s hr
  refine ⟨⟨_, hret⟩, ?_, ?_, ?_⟩
  · rw [hret]
    show (p.onQuit env s).sent.flatten = enqueued evs
    by_cases h : 0 < s.batch.length
    · rw [onQuit_flush p env s h, List.flatten_concat, hj]
    · rw [onQuit_keep p env s h, ← hj]
      have : s.batch = [] := List.eq_nil_of_length_eq_zero (by omega)
      rw [this, List.append_nil]
  · rw [hret]
    show ∀ b ∈ (p.onQuit env s).sent, b ≠ []
    intro b hbm
    by_cases h : 0 < s.batch.length
    · rw [onQuit_flush p env s h, List.mem_append, List.mem_singleton] at hbm
      rcases hbm with hbm | rfl
      · exact (hs b hbm).1
      · exact List.ne_nil_of_length_pos h
    · rw [onQuit_keep p env s h] at hbm
      exact (hs b hbm).1
  · intro env'
    rw [run_eq_loop p env' _ hm, run_eq_loop p env _ hm]
    exact loop_sent_indep p env' env _ _ _ rfl rfl

/-- C3. For a maximum batch size of at least 1, after any sequence of enqueue
and timer events the goroutine is in its loop with fewer records in the buffer
than the maximum, so that the buffer right after the next append, where the
flush decision is evaluated, holds at most the maximum; no batch handed to
`send`, by the loop or by the shutdown flush, holds more than the maximum. -/
theorem run_buffer_bounded (p : Pusher) (env : Env) (evs : List Event)
    (hm : 1 ≤ p.BatchMaxSize) (hq : Event.quit ∉ evs) :
    ∃ s, p.run env evs = .selecting s ∧
      (0 ≤ (s.batch.length : Int) ∧ (s.batch.length : Int) ≤ p.BatchMaxSize - 1) ∧
      (∀ e, ((s.appended e).length : Int) ≤ p.BatchMaxSize) ∧
      (∀ b ∈ s.sent, (b.length : Int) ≤ p.BatchMaxSize) ∧
      (∀ b ∈ (p.run env (evs ++ [.quit])).sent, (b.length : Int) ≤ p.BatchMaxSize) := by
  obtain ⟨s, hr, hj, hb, hs⟩ := run_selecting p env evs hm hq
  refine ⟨s, hr, ⟨by omega, by omega⟩, ?_, fun b hbm => (hs b hbm).2, ?_⟩
  · intro e
    simp only [RunState.appended, List.length_append, List.length_singleton]
    push_cast
    omega
  · rw [run_quit p env evs s hr]
    show ∀ b ∈ (p.onQuit env s).sent, (b.length : Int) ≤ p.BatchMaxSize
    intro b hbm
    by_cases h : 0 < s.batch.length
    · rw [onQuit_flush p env s h, List.mem_append, List.mem_singleton] at hbm
      rcases hbm with hbm | rfl
      · exact (hs b hbm).2
      · omega
    · rw [onQuit_keep p env s h] at hbm
      exact (hs b hbm).2

/-- C2 with a batch size of 2, a flush by the timer, a flush by size, a shutdown
flush, and a first send that fails. -/
theorem run_sent_concat_eq_enqueued_sample :
    ((samplePusher 2 "" "").run (sampleEnv [.error "connection refused"])
      ([.entry (sampleEntry 1 "a"), .tick, .entry (sampleEntry 2 "b"), .entry (sampleEntry 3 "c"),
        .entry (sampleEntry 4 "d")] ++ [.quit])).sent =
      [[sampleEntry 1 "a"], [sampleEntry 2 "b", sampleEntry 3 "c"], [sampleEntry 4 "d"]] ∧
    ((samplePusher 2 "" "").run (sampleEnv [.error "connection refused"])
      ([.entry (sampleEntry 1 "a"), .tick, .entry (sampleEntry 2 "b"), .entry (sampleEntry 3 "c"),
        .entry (sampleEntry 4 "d")] ++ [.quit])).sent.flatten =
      [sampleEntry 1 "a", sampleEntry 2 "b", sampleEntry 3 "c", sampleEntry 4 "d"] :=
  ⟨by decide,
    (run_sent_concat_eq_enqueued (samplePusher 2 "" "") (sampleEnv [.error "connection refused"])
      [.entry (sampleEntry 1 "a"), .tick, .entry (sampleEntry 2 "b"), .entry (sampleEntry 3 "c"),
        .entry (sampleEntry 4 "d")] (by decide) (by decide)).2.1⟩

/-- C3 with a batch size of 2 on five events. -/
theorem run_buffer_bounded_sample :
    ∃ s, (samplePusher 2 "" "").run (sampleEnv [])
        [.entry (sampleEntry 1 "a"), .tick, .entry (sampleEntry 2 "b"),
          .entry (sampleEntry 3 "c"), .entry (sampleEntry 4 "d")] = .selecting s ∧
      s.batch = [sampleEntry 4 "d"] ∧
      (∀ b ∈ s.sent, (b.length : Int) ≤ 2) := by
  obtain ⟨s, hr, -, -, hs, -⟩ := run_buffer_bounded (samplePusher 2 "" "") (sampleEnv [])
    [.entry (sampleEntry 1 "a"), .tick, .entry (sampleEntry 2 "b"),
      .entry (sampleEntry 3 "c"), .entry (sampleEntry 4 "d")] (by decide) (by decide)
  refine ⟨s, hr, ?_, hs⟩
  have hb : ((samplePusher 2 "" "").loop (sampleEnv []) RunState.init
      [.entry (sampleEntry 1 "a"), .tick, .entry (sampleEntry 2 "b"),
        .entry (sampleEntry 3 "c"), .entry (sampleEntry 4 "d")]) = .selecting s := by
    rw [← hr]
    rfl
  simp only [Pusher.loop, RunResult.selecting.injEq] at hb
  rw [← hb]
  decide

/-- Enqueues that keep the buffer below the maximum only accumulate. -/
theorem loop_accumulate (p : Pusher) (env : Env) :
    ∀ (es : List logEntry) (s : RunState),
      ((s.batch.length : Int) + es.length < p.BatchMaxSize) →
      ∃ s', p.loop env s (es.map .entry) = .selecting s' ∧
        s'.batch = s.batch ++ es ∧ s'.sent = s.sent := by
  intro es
  induction es with
  | nil =>
    intro s _
    exact ⟨s, rfl, by simp, rfl⟩
  | cons e es ih =>
    intro s h
    simp only [List.length_cons, Nat.cast_add, Nat.cast_one] at h
    have hk : ¬ p.BatchMaxSize ≤ ((s.batch ++ [e]).length : Int) := by
      simp only [List.length_append, List.length_singleton, Nat.cast_add, Nat.cast_one]
      omega
    obtain ⟨h1, h2⟩ := onEntry_keep p env s e hk
    obtain ⟨s', hl, hb, hs⟩ := ih (p.onEntry env s e) (by
      rw [h1]
      simp only [List.length_append, List.length_singleton, Nat.cast_add, Nat.cast_one]
      omega)
    refine ⟨s', hl, ?_, ?_⟩
    · rw [hb, h1]
      simp
    · rw [hs, h2]

theorem run_accumulate (p : Pusher) (env : Env) (es : List logEntry)
    (h : (es.length : Int) < p.BatchMaxSize) :
    ∃ s, p.run env (es.map .entry) = .selecting s ∧ s.batch = es ∧ s.sent = [] := by
  obtain ⟨s, hl, hb, hs⟩ := loop_accumulate p env es RunState.init
    (by simpa [RunState.init] using h)
  refine ⟨s, ?_, by simpa [RunState.init] using hb, by simpa [RunState.init] using hs⟩
  rw [run_eq_loop p env _ (by omega), hl]

theorem run_append_of_selecting (p : Pusher) (env : Env) (evs rest : List Event)
    (s : RunState) (h : p.run env evs = .selecting s) :
    p.run env (evs ++ rest) = p.loop env s rest := by
  unfold Pusher.run at h ⊢
  by_cases hneg : p.BatchMaxSize < 0
  · rw [if_pos hneg] at h
    cases h
  · rw [if_neg hneg] at h ⊢
    rw [loop_append, h]

/-- C4. For a maximum batch size `m` of at least 1, from any point of the loop at
which the buffer is empty (the start of `run` is one) and with no timer expiry
in between, `m` records enqueued one after another trigger exactly one send: no
batch is handed to `send` during the first `m - 1` enqueues, which only
accumulate, and the `m`-th hands over one batch, those `m` records in arrival
order, and leaves the buffer empty. -/
theorem size_trigger_single_flush (p : Pusher) (env : Env) (evs : List Event) (s0 : RunState)
    (es : List logEntry) (hm : 1 ≤ p.BatchMaxSize) (h0 : p.run env evs = .selecting s0)
    (hb0 : s0.batch = []) (hlen : (es.length : Int) = p.BatchMaxSize) :
    (∃ s, p.run env (evs ++ es.map .entry) = .selecting s ∧ s.sent = s0.sent ++ [es] ∧
      s.batch = []) ∧
    (∀ k, k < es.length → ∃ s, p.run env (evs ++ (es.take k).map .entry) = .selecting s ∧
      s.sent = s0.sent ∧ s.batch = es.take k) := by
  constructor
  · have hne : es ≠ [] := by
      intro h
      rw [h] at hlen
      simp at hlen
      omega
    obtain ⟨front, last, rfl⟩ : ∃ front last, es = front ++ [last] :=
      ⟨es.dropLast, es.getLast hne, (List.dropLast_append_getLast hne).symm⟩
    simp only [List.length_append, List.length_singleton, Nat.cast_add, Nat.cast_one] at hlen
    obtain ⟨s, hr, hb, hs⟩ := loop_accumulate p env front s0 (by rw [hb0]; simp; omega)
    rw [run_append_of_selecting p env evs _ s0 h0, List.map_append, loop_append, hr]
    rw [hb0, List.nil_append] at hb
    have hf : p.BatchMaxSize ≤ ((s.batch ++ [last]).length : Int) := by
      rw [hb]
      simp only [List.length_append, List.length_singleton, Nat.cast_add, Nat.cast_one]
      omega
    obtain ⟨h1, h2⟩ := onEntry_flush p env s last hf
    refine ⟨p.onEntry env s last, rfl, ?_, h1⟩
    rw [h2, hs, hb]
  · intro k hk
    obtain ⟨s, hr, hb, hs⟩ := loop_accumulate p env (es.take k) s0 (by
      rw [hb0, List.length_take]
      simp
      omega)
    rw [hb0, List.nil_append] at hb
    exact ⟨s, by rw [run_append_of_selecting p env evs _ s0 h0, hr], hs, hb⟩

/-- C4 with a batch size of 3, from the start of `run`. -/
theorem size_trigger_single_flush_sample :
    (∃ s, (samplePusher 3 "" "").run (sampleEnv [])
        [.entry (sampleEntry 1 "a"), .entry (sampleEntry 2 "b"), .entry (sampleEntry 3 "c")] =
          .selecting s ∧
      s.sent = [[sampleEntry 1 "a", sampleEntry 2 "b", sampleEntry 3 "c"]] ∧ s.batch = []) ∧
    (∃ s, (samplePusher 3 "" "").run (sampleEnv [])
        [.entry (sampleEntry 1 "a"), .entry (sampleEntry 2 "b")] = .selecting s ∧
      s.sent = [] ∧ s.batch = [sampleEntry 1 "a", sampleEntry 2 "b"]) :=
  ⟨(size_trigger_single_flush (samplePusher 3 "" "") (sampleEnv []) [] RunState.init
      [sampleEntry 1 "a", sampleEntry 2 "b", sampleEntry 3 "c"] (by decide) rfl rfl
      (by decide)).1,
    (size_trigger_single_flush (samplePusher 3 "" "") (sampleEnv []) [] RunState.init
      [sampleEntry 1 "a", sampleEntry 2 "b", sampleEntry 3 "c"] (by decide) rfl rfl
      (by decide)).2 2 (by decide)⟩

/-- `Stop` on a pusher whose `quit` channel is open and whose goroutine, the
only one counted by the wait group, is in its loop. -/
theorem stop_of_selecting (p : Pusher) (env : Env) (s : RunState)
    (hq : p.quitClosed = false) (hw : p.waitGroup = 1) :
    Pusher.Stop env { pusher := p, goroutine := .selecting s } =
      .returned { pusher := { p with quitClosed := true, waitGroup := 0 },
                  goroutine := .returned (p.onQuit env s) } := by
  simp [Pusher.Stop, hq, hw]

/-- C5. For a maximum batch size of at least 1, let the buffer hold `k` records
after any sequence of enqueue and timer events (`k` is below the maximum; after
`k` enqueues from the start, below the maximum, these are exactly the enqueued
records in arrival order and nothing has been sent). A timer expiry then hands
exactly one more batch to `send`, the buffer content, when `k` is at least 1,
and none when `k` is 0, and leaves the goroutine in its loop with an empty
buffer. Shutdown likewise hands over exactly that one batch, or none for
`k = 0`, and `Stop` returns only with that send done. -/
theorem residual_batch_flush (p : Pusher) (env : Env) (evs : List Event)
    (hm : 1 ≤ p.BatchMaxSize) (hq : Event.quit ∉ evs)
    (hc : p.quitClosed = false) (hw : p.waitGroup = 1) :
    ∃ s, p.run env evs = .selecting s ∧ (s.batch.length : Int) < p.BatchMaxSize ∧
      (∀ es : List logEntry, evs = es.map .entry → (es.length : Int) < p.BatchMaxSize →
        s.batch = es ∧ s.sent = []) ∧
      (∃ s1, p.run env (evs ++ [.tick]) = .selecting s1 ∧ s1.batch = [] ∧
        (1 ≤ s.batch.length → s1.sent = s.sent ++ [s.batch]) ∧
        (s.batch.length = 0 → s1.sent = s.sent)) ∧
      (∃ s2, p.run env (evs ++ [.quit]) = .returned s2 ∧
        (1 ≤ s.batch.length → s2.sent = s.sent ++ [s.batch]) ∧
        (s.batch.length = 0 → s2.sent = s.sent)) ∧
      (∃ proc s3, Pusher.Stop env { pusher := p, goroutine := p.run env evs } = .returned proc ∧
        proc.goroutine = .returned s3 ∧
        (1 ≤ s.batch.length → s3.sent = s.sent ++ [s.batch]) ∧
        (s.batch.length = 0 → s3.sent = s.sent)) := by
  obtain ⟨s, hr, -, hb, -⟩ := run_selecting p env evs hm hq
  have hquit : (1 ≤ s.batch.length → (p.onQuit env s).sent = s.sent ++ [s.batch]) ∧
      (s.batch.length = 0 → (p.onQuit env s).sent = s.sent) :=
    ⟨fun h1 => onQuit_flush p env s (by omega), fun h0 => onQuit_keep p env s (by omega)⟩
  refine ⟨s, hr, hb, ?_, ⟨p.onTick env s, ?_, ?_, ?_, ?_⟩, ⟨p.onQuit env s, ?_, hquit⟩,
    ⟨{ pusher := { p with quitClosed := true, waitGroup := 0 },
       goroutine := .returned (p.onQuit env s) }, p.onQuit env s, ?_, rfl, hquit⟩⟩
  · intro es hes hlen
    obtain ⟨s', hr', hb', hs'⟩ := run_accumulate p env es hlen
    rw [← hes, hr] at hr'
    cases hr'
    exact ⟨hb', hs'⟩
  · rw [run_append_of_selecting p env _ _ s hr]
    rfl
  · by_cases h : 0 < s.batch.length
    · exact (onTick_flush p env s h).1
    · rw [(onTick_keep p env s h).1]
      exact List.eq_nil_of_length_eq_zero (by omega)
  · intro h1
    exact (onTick_flush p env s (by omega)).2
  · intro h0
    exact (onTick_keep p env s (by omega)).2
  · exact run_quit p env _ s hr
  · rw [hr]
    exact stop_of_selecting p env s hc hw

/-- C5 with 5 records and a batch size of 1000, at shutdown. -/
theorem residual_batch_flush_sample :
    ∃ proc s, Pusher.Stop (sampleEnv []) (sampleProcess 1000
        [sampleEntry 1 "a", sampleEntry 2 "b", sampleEntry 3 "c", sampleEntry 4 "d",
          sampleEntry 5 "e"]) = .returned proc ∧
      proc.goroutine = .returned s ∧
      s.sent = [[sampleEntry 1 "a", sampleEntry 2 "b", sampleEntry 3 "c", sampleEntry 4 "d",
        sampleEntry 5 "e"]] := by
  obtain ⟨s, -, -, hfresh, -, -, proc, s3, h1, h2, h3, -⟩ :=
    residual_batch_flush (samplePusher 1000 "" "") (sampleEnv [])
      ([sampleEntry 1 "a", sampleEntry 2 "b", sampleEntry 3 "c", sampleEntry 4 "d",
        sampleEntry 5 "e"].map .entry) (by decide) (by decide) rfl rfl
  obtain ⟨hb, hs⟩ := hfresh _ rfl (by decide)
  refine ⟨proc, s3, h1, h2, ?_⟩
  rw [h3 (by rw [hb]; decide), hs, hb]
  rfl

/-! ## Double shutdown -/

/-- After a `Stop` that returned, the `quit` channel is closed. -/
theorem stop_returned_quitClosed (env : Env) (proc proc1 : Process)
    (h : Pusher.Stop env proc = .returned proc1) : proc1.pusher.quitClosed = true := by
  unfold Pusher.Stop at h
  by_cases hq : proc.pusher.quitClosed = true
  · rw [if_pos hq] at h
    cases h
  · rw [if_neg hq] at h
    cases hg : proc.goroutine with
    | selecting s =>
      simp only [hg] at h
      split at h
      · cases h
        rfl
      · cases h
    | returned s =>
      simp only [hg] at h
      split at h
      · cases h
        rfl
      · cases h
    | panicked msg =>
      simp only [hg] at h
      split at h
      · cases h
        rfl
      · cases h

theorem stop_of_quitClosed (env : Env) (proc : Process) (h : proc.pusher.quitClosed = true) :
    Pusher.Stop env proc = .panicked "close of closed channel" := by
  unfold Pusher.Stop
  rw [if_pos h]

/-- C10, as the code has it. A second invocation of `Stop`, made after a first
one has returned, does not deadlock: it never reaches the wait, and it ends at
once in the run-time panic of closing a closed channel instead of returning
normally; the same holds through the hook's `Stop`. -/
theorem second_stop_panics (env : Env) (proc proc1 : Process)
    (h : Pusher.Stop env proc = .returned proc1) :
    Pusher.Stop env proc1 = .panicked "close of closed channel" ∧
    LogrusLokiHook.Stop env proc1 = .panicked "close of closed channel" ∧
    Pusher.Stop env proc1 ≠ .blocked ∧
    (∀ proc2, Pusher.Stop env proc1 ≠ .returned proc2) := by
  have hp := stop_of_quitClosed env proc1 (stop_returned_quitClosed env proc proc1 h)
  refine ⟨hp, hp, ?_, ?_⟩
  · rw [hp]
    intro h'
    cases h'
  · intro proc2
    rw [hp]
    intro h'
    cases h'

/-- C10 on a freshly created pusher. -/
theorem second_stop_panics_sample :
    ∃ proc1, Pusher.Stop (sampleEnv []) (NewPusher (sampleEnv []) (sampleConfig "")) =
        .returned proc1 ∧
      Pusher.Stop (sampleEnv []) proc1 = .panicked "close of closed channel" := by
  have hN : NewPusher (sampleEnv []) (sampleConfig "") =
      { pusher := (NewPusher (sampleEnv []) (sampleConfig "")).pusher
        goroutine := .selecting RunState.init } := by decide
  have h2 := stop_of_selecting (NewPusher (sampleEnv []) (sampleConfig "")).pusher (sampleEnv [])
    RunState.init rfl rfl
  rw [← hN] at h2
  exact ⟨_, h2, (second_stop_panics (sampleEnv []) _ _ h2).1⟩

/-- C10 as stated fails: on a freshly created pusher the first `Stop` returns and
the second one does not return, it panics. -/
theorem second_stop_does_not_return :
    ¬ ∀ (proc proc1 : Process), Pusher.Stop (sampleEnv []) proc = .returned proc1 →
      ∃ proc2, Pusher.Stop (sampleEnv []) proc1 = .returned proc2 := by
  intro hall
  have hN : NewPusher (sampleEnv []) (sampleConfig "") =
      { pusher := (NewPusher (sampleEnv []) (sampleConfig "")).pusher
        goroutine := .selecting RunState.init } := by decide
  have h2 := stop_of_selecting (NewPusher (sampleEnv []) (sampleConfig "")).pusher (sampleEnv [])
    RunState.init rfl rfl
  rw [← hN] at h2
  obtain ⟨proc2, h3⟩ := hall _ _ h2
  rw [stop_of_quitClosed _ _ (stop_returned_quitClosed _ _ _ h2)] at h3
  cases h3

end llh
